import Mathlib

/-!
Verification development for the go-polygon-fixer repository.

Shallow embedding conventions:
* Go `float64` arithmetic is modelled by exact rationals (`ℚ`); `math.Round`
  (round half away from zero) is modelled by `goRound`, and Go's `int(x)`
  conversion (truncation toward zero) by `goTrunc`.
* Go `int` values used as slice positions are modelled by `ℕ`; grid cell
  coordinates (which may be negative) by `ℤ`.
* The GEOS geometry kernel is out of scope for the repository (an external
  library); its operations are modelled by an abstract `Kernel` structure of
  total/partial functions, with `nil` pointer results modelled by `Option`.
* Goroutine completion order is modelled by an explicit permutation `π`
  (a list of job indices in completion order); `permuteBy π jobs` is the
  order in which results are received from a channel.
-/

namespace PolygonFixer

/-- Go `math.Round`: round half away from zero, on exact rationals. -/
def goRound (x : ℚ) : ℤ :=
  if 0 ≤ x then ⌊x + 1/2⌋ else -⌊-x + 1/2⌋

/-- Go `int(x)` conversion of a float: truncation toward zero. -/
def goTrunc (x : ℚ) : ℤ :=
  if 0 ≤ x then ⌊x⌋ else -⌊-x⌋

/-- utils/polygon-utils.go `roundFloat`: `math.Round(val*ratio) / ratio`
with `ratio = 10^precision`. -/
def roundFloat (val : ℚ) (precision : ℕ) : ℚ :=
  goRound (val * 10 ^ precision) / (10 ^ precision : ℚ)

/-- utils/polygon-utils.go `PRECISION = 7`. -/
def PRECISION : ℕ := 7

/-- utils/polygon-utils.go `truncateCoordinates`. -/
def truncateCoordinates (x y : ℚ) : ℚ × ℚ :=
  (roundFloat x PRECISION, roundFloat y PRECISION)

/-- A coordinate pair. -/
abbrev Point := ℚ × ℚ

/-- Round every coordinate of a ring (the per-ring loop bodies of
`TruncateSinglePolygon`). -/
def truncRing (ring : List Point) : List Point :=
  ring.map (fun p => truncateCoordinates p.1 p.2)

/-- A GEOS polygon: exterior ring plus interior rings, as coordinate lists
(the `[][][]float64` rings array passed to `geos.NewPolygon`). -/
structure Poly where
  exterior : List Point
  interiors : List (List Point)
deriving DecidableEq

/-- utils/polygon-utils.go `TruncateSinglePolygon`.  `vRing rc` models
`geos.NewPolygon([][][]float64{rc}).IsValid()`, the kernel validity test on
the trial polygon built from a rounded interior ring. Returns `none` where
the source returns `nil` (exterior ring missing or with ≤ 3 coordinates). -/
def TruncateSinglePolygon (vRing : List Point → Bool) (polygon : Poly) : Option Poly :=
  if 3 < polygon.exterior.length then
    let outer := truncRing polygon.exterior
    let inners := polygon.interiors.filterMap (fun ring =>
      if 3 < ring.length then
        let rc := truncRing ring
        if rc.length ≠ 0 ∧ vRing rc then some rc else none
      else none)
    some ⟨outer, inners⟩
  else none

/-- A GEOS geometry handle as decomposed by `TruncateFullGeometry`:
either a single Polygon (TypeID 3) or a MultiPolygon (TypeID 6).
(The pipeline only feeds these two types to truncation.) -/
inductive GeosTree where
  | poly (p : Poly)
  | multi (ps : List Poly)
deriving DecidableEq

/-- The polygons for which `TruncateFullGeometry` launches truncation
goroutines, in launch order: the `NumGeometries`/`Geometry(i)` loop with the
`IsValid` gate (`vGeom` models the kernel `IsValid` on a polygon part).
For a Polygon handle GEOS reports `NumGeometries() = 1` with `Geometry(0)`
the polygon itself; for a MultiPolygon the parts are enumerated in order. -/
def launchList (vGeom : Poly → Bool) : GeosTree → List Poly
  | .poly p => if vGeom p then [p] else []
  | .multi ps => ps.filter vGeom

/-- Receive results from a channel in completion order `π`: the `k`-th
result received is the result of job `π[k]`. -/
def permuteBy (π : List ℕ) (l : List α) : List α :=
  π.filterMap (fun k => l[k]?)

/-- utils/polygon-utils.go `TruncateFullGeometry`: counts the valid polygon
parts, launches a goroutine per part, then receives results from the shared
channel in completion order `π`, dropping `nil` results, and rebuilds a
Polygon (one result) or MultiPolygon (several, in arrival order). -/
def TruncateFullGeometry (vGeom : Poly → Bool) (vRing : List Point → Bool)
    (π : List ℕ) (feature : Option GeosTree) : Except String GeosTree :=
  match feature with
  | none => .error "geometry is nil"
  | some f =>
    let launched := launchList vGeom f
    if launched.length = 0 then .error "no valid polygons found"
    else
      let results := (permuteBy π launched).map (TruncateSinglePolygon vRing)
      let newPolygons := results.filterMap id
      match newPolygons with
      | [] => .error "no valid truncated polygons produced"
      | [p] => .ok (.poly p)
      | ps => .ok (.multi ps)

/-- A geometry bounding box (go-geos `Box2D`). -/
structure Box where
  MinX : ℚ
  MinY : ℚ
  MaxX : ℚ
  MaxY : ℚ
deriving DecidableEq

/-- The geometry kernel interface consumed by the cleaning core
(go-geos operations; `Option` models possibly-`nil` pointer results). -/
structure Kernel (G : Type) where
  area : G → ℚ
  hausdorffDistance : G → G → ℚ
  snap : G → G → ℚ → Option G
  distance : G → G → ℚ
  bounds : G → Option Box
  buffer : G → ℚ → ℕ → Option G
  boundary : G → Option G
  intersection : G → G → Option G
  geomLength : G → ℚ
  overlaps : G → G → Bool
  isValid : G → Bool
  makeValid : G → Option G

/-- handlers `calculateGeometryDistortion`: 0 when either handle is `nil`
or the original area is 0, otherwise `|ΔArea|/originalArea + Hausdorff`. -/
def calculateGeometryDistortion (K : Kernel G) (original modified : Option G) : ℚ :=
  match original, modified with
  | some o, some m =>
    let originalArea := K.area o
    let modifiedArea := K.area m
    if originalArea = 0 then 0
    else
      let areaChange := (modifiedArea - originalArea) / originalArea
      let areaChange := if areaChange < 0 then -areaChange else areaChange
      areaChange + K.hausdorffDistance o m
  | _, _ => 0

/-- handlers `conservativeSnap`: snap with a distortion budget; rejection
returns the input handle unchanged with `accepted = false`. -/
def conservativeSnap (K : Kernel G) (geom target : Option G)
    (tolerance maxDistortion : ℚ) : Option G × Bool :=
  match geom, target with
  | some g, some t =>
    match K.snap g t tolerance with
    | none => (geom, false)
    | some snappedGeom =>
      let distortion := calculateGeometryDistortion K (some g) (some snappedGeom)
      if distortion > maxDistortion then (geom, false)
      else (some snappedGeom, true)
  | _, _ => (geom, false)

/-- Modelled from the spec: the distortion score as the spec's words define
it, `|modifiedArea - originalArea|/originalArea + HausdorffDistance`,
with no special case for a zero original area (ℚ division by zero is 0). -/
def specDistortionScore (K : Kernel G) (original modified : G) : ℚ :=
  |K.area modified - K.area original| / K.area original
    + K.hausdorffDistance original modified

/-- utils/spatial-index.go `IndexedGeometry`. The stored `Geom` is never
`nil` (`AddGeometry` rejects `nil` before constructing the record). -/
structure IndexedGeometry (G P : Type) where
  Geom : G
  Index : ℤ
  Properties : P
deriving DecidableEq

/-- utils/spatial-index.go `SpatialIndex`.  The Go grid is
`map[string][]*IndexedGeometry` keyed by `fmt.Sprintf("%d,%d", x, y)`, an
injective encoding of the cell pair; we key by `ℤ × ℤ` directly. -/
structure SpatialIndex (G P : Type) where
  geometries : List (IndexedGeometry G P)
  cellSize : ℚ
  grid : ℤ × ℤ → List (IndexedGeometry G P)

/-- utils/spatial-index.go `NewSpatialIndex`. -/
def NewSpatialIndex (G P : Type) (cellSize : ℚ) : SpatialIndex G P :=
  ⟨[], cellSize, fun _ => []⟩

/-- The cells visited by `for c := lo; c <= hi; c++`. -/
def cellRange (lo hi : ℤ) : List ℤ :=
  (List.range (hi + 1 - lo).toNat).map (fun k : ℕ => lo + (k : ℤ))

/-- The cell pairs visited by the nested x/y loops, x outer, y inner. -/
def cellPairs (minX maxX minY maxY : ℤ) : List (ℤ × ℤ) :=
  (cellRange minX maxX).flatMap (fun x => (cellRange minY maxY).map (fun y => (x, y)))

/-- One iteration of the `addToGrid` cell loop:
`si.grid[cellKey] = append(si.grid[cellKey], indexedGeom)`. -/
def gridAppend (si : SpatialIndex G P) (indexedGeom : IndexedGeometry G P)
    (cell : ℤ × ℤ) : SpatialIndex G P :=
  { si with grid := fun c' => if c' = cell then si.grid c' ++ [indexedGeom] else si.grid c' }

/-- utils/spatial-index.go `addToGrid`: append the record to every grid cell
its bounding box spans; a `nil`-bounds geometry is skipped with a warning. -/
def addToGrid (K : Kernel G) (si : SpatialIndex G P) (indexedGeom : IndexedGeometry G P) :
    SpatialIndex G P :=
  match K.bounds indexedGeom.Geom with
  | none => si
  | some b =>
    let minCellX := ⌊b.MinX / si.cellSize⌋
    let minCellY := ⌊b.MinY / si.cellSize⌋
    let maxCellX := ⌊b.MaxX / si.cellSize⌋
    let maxCellY := ⌊b.MaxY / si.cellSize⌋
    (cellPairs minCellX maxCellX minCellY maxCellY).foldl
      (fun si2 c => gridAppend si2 indexedGeom c) si

/-- utils/spatial-index.go `AddGeometry`: `nil` geometries are rejected with
a warning; otherwise the record is appended and bucketed. -/
def AddGeometry (K : Kernel G) (si : SpatialIndex G P) (geom : Option G)
    (index : ℤ) (properties : P) : SpatialIndex G P :=
  match geom with
  | none => si
  | some g =>
    let indexedGeom : IndexedGeometry G P := ⟨g, index, properties⟩
    addToGrid K { si with geometries := si.geometries ++ [indexedGeom] } indexedGeom

/-- Build a spatial index by a sequence of `AddGeometry` calls. -/
def buildIndex (K : Kernel G) (cellSize : ℚ) (inserts : List (Option G × ℤ × P)) :
    SpatialIndex G P :=
  inserts.foldl (fun si t => AddGeometry K si t.1 t.2.1 t.2.2) (NewSpatialIndex G P cellSize)

/-- One assignment `candidates[r.Index] = r` on the Go `map[int]` of
candidates: overwrite the existing entry for the key, else append. -/
def mapSet (m : List (ℤ × IndexedGeometry G P)) (r : IndexedGeometry G P) :
    List (ℤ × IndexedGeometry G P) :=
  if ∃ p ∈ m, p.1 = r.Index then
    m.map (fun p => if p.1 = r.Index then (p.1, r) else p)
  else m ++ [(r.Index, r)]

/-- utils/spatial-index.go `FindNeighbors`: buffer the query geometry,
enumerate the cells the buffer's bounding box spans, collect candidates into
a map keyed by index (excluding the query handle itself), then keep those
within true distance.  Go map iteration order is unspecified; we realise one
deterministic order (insertion order), which only affects result order. -/
def FindNeighbors [DecidableEq G] (K : Kernel G) (si : SpatialIndex G P)
    (geom : G) (distance : ℚ) : List (IndexedGeometry G P) :=
  match K.buffer geom distance 8 with
  | none => []
  | some buffer =>
    match K.bounds buffer with
    | none => []
    | some b =>
      let minCellX := ⌊b.MinX / si.cellSize⌋
      let minCellY := ⌊b.MinY / si.cellSize⌋
      let maxCellX := ⌊b.MaxX / si.cellSize⌋
      let maxCellY := ⌊b.MaxY / si.cellSize⌋
      let entries := (cellPairs minCellX maxCellX minCellY maxCellY).flatMap si.grid
      let candidates := entries.foldl
        (fun m candidate => if candidate.Geom ≠ geom then mapSet m candidate else m) []
      (candidates.map (·.2)).filter (fun c => K.distance geom c.Geom ≤ distance)

/-- utils/spatial-index.go `CalculateWGS84Tolerance`. -/
def CalculateWGS84Tolerance (precisionDecimals : ℕ) : ℚ :=
  ((10 : ℚ) ^ precisionDecimals)⁻¹ * 10

/-- utils/spatial-index.go `CalculateWGS84ToleranceFromMeters`. -/
def CalculateWGS84ToleranceFromMeters (meters : ℚ) : ℚ :=
  meters / 111000

/-- handlers/dissolve.go `CascadedUnion`, with an explicit recursion-depth
fuel (the Go function recurses unconditionally when `len != 1`, so it need
not terminate; `none` means the recursion has not reached a base case within
`fuel` nested calls). -/
def cascadedUnionFuel (union : G → G → G) : List G → ℕ → Option G
  | _, 0 => none
  | geometries, fuel + 1 =>
    match geometries with
    | [g] => some g
    | gs =>
      let mid := gs.length / 2
      match cascadedUnionFuel union (gs.take mid) fuel,
            cascadedUnionFuel union (gs.drop mid) fuel with
      | some left, some right => some (union left right)
      | _, _ => none

/-- handlers `CoverageJob`. -/
structure CoverageJob (G : Type) where
  GeomI : G
  GeomJ : G
  IndexI : ℕ
  IndexJ : ℕ
  Tolerance : ℚ

/-- handlers `CoverageResult`. -/
structure CoverageResult where
  IndexI : ℕ
  IndexJ : ℕ
  HasOverlap : Bool
  OverlapArea : ℚ
  HasGap : Bool
  GapDistance : ℚ
  MaxGapWidth : ℚ
  BoundaryGaps : ℤ
  ResErr : Option String
deriving DecidableEq

/-- handlers `analyzeBoundaryGaps`: returns
`(hasGap, distance, maxGapWidth, boundaryGaps)`.  Any `nil` kernel result
(boundary, buffer, intersection) yields no gap. -/
def analyzeBoundaryGaps (K : Kernel G) (geomI geomJ : G) (tolerance : ℚ) :
    Bool × ℚ × ℚ × ℤ :=
  match K.boundary geomI, K.boundary geomJ with
  | some boundaryI, some boundaryJ =>
    let distance := K.distance boundaryI boundaryJ
    if distance ≤ tolerance ∨ distance > tolerance * 50 then (false, distance, 0, 0)
    else
      match K.buffer boundaryI (tolerance * 2) 8, K.buffer boundaryJ (tolerance * 2) 8 with
      | some bufferI, some bufferJ =>
        match K.intersection bufferI bufferJ with
        | some inter =>
          if K.area inter > tolerance * tolerance then
            let maxGapWidth := distance
            let boundaryGaps : ℤ :=
              if K.geomLength inter > tolerance * 10 then
                let bg := goTrunc (K.geomLength inter / (tolerance * 5))
                if bg < 1 then 1 else bg
              else 1
            (true, distance, maxGapWidth, boundaryGaps)
          else (false, distance, 0, 0)
        | none => (false, distance, 0, 0)
      | _, _ => (false, distance, 0, 0)
  | _, _ => (false, 0, 0, 0)

/-- The overlap branch of `validatePair`: flag an overlap when the kernel
predicate holds and the intersection area exceeds `tolerance²`. -/
def overlapCheck (K : Kernel G) (coverageJob : CoverageJob G) (result : CoverageResult) :
    CoverageResult :=
  if K.overlaps coverageJob.GeomI coverageJob.GeomJ then
    match K.intersection coverageJob.GeomI coverageJob.GeomJ with
    | some inter =>
      if K.area inter > coverageJob.Tolerance * coverageJob.Tolerance then
        { result with HasOverlap := true, OverlapArea := K.area inter }
      else result
    | none => result
  else result

/-- The per-pair work function of `validateCoverageParallel`
(`validatePair`): overlap check, then boundary-gap analysis gated by the
`distance ≤ tolerance*50` prefilter on the geometries themselves. -/
def validatePair (K : Kernel G) (coverageJob : CoverageJob G) : CoverageResult :=
  let distance := K.distance coverageJob.GeomI coverageJob.GeomJ
  let result : CoverageResult :=
    ⟨coverageJob.IndexI, coverageJob.IndexJ, false, 0, false, distance, 0, 0, none⟩
  let result := overlapCheck K coverageJob result
  if distance ≤ coverageJob.Tolerance * 50 then
    let (hasGap, gapDistance, maxGapWidth, boundaryGaps) :=
      analyzeBoundaryGaps K coverageJob.GeomI coverageJob.GeomJ coverageJob.Tolerance
    if hasGap then
      { result with HasGap := true, GapDistance := gapDistance,
                    MaxGapWidth := maxGapWidth, BoundaryGaps := boundaryGaps }
    else result
  else result

/-- Modelled from the spec: "the coverage audit reports a gap iff the
inter-geometry distance lies within [tolerance, tolerance*50] and the area
of the intersection of the two boundaries each buffered by tolerance*2
exceeds tolerance²". -/
def specGapReported (K : Kernel G) (gI gJ : G) (tolerance : ℚ) : Prop :=
  (tolerance ≤ K.distance gI gJ ∧ K.distance gI gJ ≤ tolerance * 50) ∧
  ∃ bI bJ bufI bufJ inter,
    K.boundary gI = some bI ∧ K.boundary gJ = some bJ ∧
    K.buffer bI (tolerance * 2) 8 = some bufI ∧ K.buffer bJ (tolerance * 2) 8 = some bufJ ∧
    K.intersection bufI bufJ = some inter ∧ K.area inter > tolerance * tolerance

/-- handlers `CoverageReport`. -/
structure CoverageReport where
  GapCount : ℤ
  OverlapCount : ℤ
  GapArea : ℚ
  OverlapArea : ℚ
  TotalGapLength : ℚ
  MaxGapWidth : ℚ
  BoundaryGaps : ℤ
deriving DecidableEq

/-- The all-zero report literal repeated in `validateCoverageParallel`. -/
def zeroCoverageReport : CoverageReport := ⟨0, 0, 0, 0, 0, 0, 0⟩

/-- handlers `GeomFeature`: a possibly-`nil` geometry handle plus its
GeoJSON properties (kept opaque as `P`). -/
structure GeomFeature (G P : Type) where
  Geom : Option G
  Properties : P
deriving DecidableEq, Inhabited

/-- The aggregation step of `validateCoverageParallel`'s result loop. -/
def coverageStep (report : CoverageReport) (r : CoverageResult) : CoverageReport :=
  if r.ResErr.isSome then report
  else
    let report :=
      if r.HasOverlap then
        { report with OverlapCount := report.OverlapCount + 1,
                      OverlapArea := report.OverlapArea + r.OverlapArea }
      else report
    if r.HasGap then
      { report with GapCount := report.GapCount + 1,
                    BoundaryGaps := report.BoundaryGaps + r.BoundaryGaps,
                    TotalGapLength := report.TotalGapLength + r.GapDistance,
                    MaxGapWidth := if r.MaxGapWidth > report.MaxGapWidth
                                   then r.MaxGapWidth else report.MaxGapWidth }
    else report

/-- The pair-job generation loops of `validateCoverageParallel`:
all `i < j` with both geometries non-`nil`. -/
def coverageJobs (geomFeatures : List (GeomFeature G P)) (tolerance : ℚ) :
    List (CoverageJob G) :=
  geomFeatures.enum.flatMap (fun pi =>
    match pi.2.Geom with
    | none => []
    | some gi =>
      geomFeatures.enum.filterMap (fun pj =>
        if pi.1 < pj.1 then
          match pj.2.Geom with
          | none => none
          | some gj => some ⟨gi, gj, pi.1, pj.1, tolerance⟩
        else none))

/-- handlers `validateCoverageParallel`: pair enumeration, parallel
`validatePair` (results received in completion order `π`), aggregation. -/
def validateCoverageParallel (K : Kernel G) (geomFeatures : List (GeomFeature G P))
    (tolerance : ℚ) (π : List ℕ) : CoverageReport :=
  if geomFeatures.length ≤ 1 then zeroCoverageReport
  else
    let jobs := coverageJobs geomFeatures tolerance
    if jobs.length = 0 then zeroCoverageReport
    else
      let results := permuteBy π (jobs.map (validatePair K))
      results.foldl coverageStep zeroCoverageReport

/-- handlers `Feature`: type tag, raw GeoJSON geometry (opaque as `J`),
properties (opaque as `P`). -/
structure Feature (J P : Type) where
  type : String
  geometry : J
  properties : P
deriving DecidableEq

/-- The GeoJSON-parsing slice of the kernel used by the Parse stage
(`geos.NewGeomFromGeoJSON`, `TypeID`, `IsEmpty`). -/
structure ParseKernel (J G : Type) where
  fromGeoJSON : J → Except String G
  typeID : G → ℕ
  isEmpty : G → Bool

/-- handlers `ParsingJob`. -/
structure ParsingJob (J P : Type) where
  Feature : Feature J P
  Index : ℕ

/-- handlers `ParsingResult`.  Error results leave `GeomFeature` and `Index`
at their Go zero values (`nil` geometry, zero-value properties, index 0). -/
structure ParsingResult (G P : Type) where
  geomF : GeomFeature G P
  Index : ℕ
  ResErr : Option String

/-- The work function of `parseGeometriesParallel` (the `json.Marshal` of a
`json.RawMessage` is the identity on the raw bytes and is not modelled). -/
def parseWork [Inhabited P] (PK : ParseKernel J G) (parsingJob : ParsingJob J P) :
    ParsingResult G P :=
  match PK.fromGeoJSON parsingJob.Feature.geometry with
  | .error _ => ⟨⟨none, default⟩, 0, some "error creating geometry"⟩
  | .ok geom =>
    if PK.typeID geom = 3 ∨ PK.typeID geom = 6 then
      if PK.isEmpty geom then ⟨⟨none, default⟩, 0, some "skipping empty geometry"⟩
      else ⟨⟨some geom, parsingJob.Feature.properties⟩, parsingJob.Index, none⟩
    else ⟨⟨none, default⟩, 0, some "skipping non-polygon geometry"⟩

/-- handlers `parseGeometriesParallel`: results are received in completion
order `π` and the valid ones appended in THAT order — the `Index` carried in
`ParsingResult` is never used to restore submission order. -/
def parseGeometriesParallel [Inhabited P] (PK : ParseKernel J G)
    (features : List (Feature J P)) (π : List ℕ) : List (GeomFeature G P) :=
  let jobs := features.enum.map (fun p => ParsingJob.mk p.2 p.1)
  let results := permuteBy π (jobs.map (parseWork PK))
  results.filterMap (fun r => match r.ResErr with
    | some _ => none
    | none => some r.geomF)

/-- handlers `SnappingResult` (the job's spatial index and tolerance are
passed as parameters rather than stored in the job record). -/
structure SnappingResult (G P : Type) where
  geomF : GeomFeature G P
  Index : ℕ
  WasSnapped : Bool
  ResErr : Option String

/-- The work function of `snapBoundariesParallel`: find neighbors within
`tolerance*5`, then fold `conservativeSnap` over them (skipping the record
itself), with `maxDistortion = tolerance*0.1`.  The Go pointer test
`tempSnapped != snappedGeom` is modelled by value inequality. -/
def snapWork [DecidableEq G] (K : Kernel G) (si : SpatialIndex G P) (tolerance : ℚ)
    (geomF : GeomFeature G P) (index : ℕ) : SnappingResult G P :=
  match geomF.Geom with
  | none => ⟨geomF, index, false, none⟩
  | some geom =>
    let neighbors := FindNeighbors K si geom (tolerance * 5)
    if neighbors.length = 0 then ⟨geomF, index, false, none⟩
    else
      let maxDistortion := tolerance * (1/10)
      let folded := neighbors.foldl
        (fun (acc : G × Bool) neighbor =>
          if neighbor.Index ≠ (index : ℤ) then
            let snapResult := conservativeSnap K (some acc.1) (some neighbor.Geom)
              tolerance maxDistortion
            match snapResult with
            | (some tempSnapped, true) =>
              if tempSnapped ≠ acc.1 then (tempSnapped, true) else acc
            | _ => acc
          else acc)
        (geom, false)
      ⟨⟨some folded.1, geomF.Properties⟩, index, folded.2, none⟩

/-- handlers `snapBoundariesParallel`: jobs in submission order, results in
completion order `π`, collected back into submission order via
`resultGeometries[result.Index] = ...` (errored jobs fall back to the input
record). -/
def snapBoundariesParallel [DecidableEq G] [Inhabited P] (K : Kernel G)
    (geomFeatures : List (GeomFeature G P)) (si : SpatialIndex G P)
    (tolerance : ℚ) (π : List ℕ) : List (GeomFeature G P) :=
  let results := permuteBy π
    (geomFeatures.enum.map (fun p => snapWork K si tolerance p.2 p.1))
  results.foldl
    (fun acc r =>
      if r.ResErr.isSome then acc.set r.Index (geomFeatures.getD r.Index default)
      else acc.set r.Index r.geomF)
    (List.replicate geomFeatures.length default)

/-- handlers `ValidationResult`. -/
structure ValidationResult (G P : Type) where
  geomF : GeomFeature G P
  Index : ℕ
  WasRepaired : Bool
  ResErr : Option String

/-- The repair step of the Validate & Repair work function: `MakeValid`
(with linework/discard-collapsed parameters) is applied only when the
geometry is invalid, and a `nil` repair output keeps the original. -/
def repairOf (K : Kernel G) (geom : G) : G × Bool :=
  if ¬ K.isValid geom then
    match K.makeValid geom with
    | some repairedGeom => (repairedGeom, true)
    | none => (geom, false)
  else (geom, false)

/-- The work function of `validateAndRepairGeometriesParallel`: repair if
invalid, then truncate; a truncation error is recorded in the result but the
record keeps its post-repair geometry and its properties. -/
def validateGeometry (K : Kernel G) (truncateFull : G → Except String G)
    (geomF : GeomFeature G P) (index : ℕ) : ValidationResult G P :=
  match geomF.Geom with
  | none => ⟨geomF, index, false, some "nil geometry"⟩
  | some geom0 =>
    let (geom, wasRepaired) := repairOf K geom0
    match truncateFull geom with
    | .error e => ⟨⟨some geom, geomF.Properties⟩, index, wasRepaired, some e⟩
    | .ok truncatedGeom => ⟨⟨some truncatedGeom, geomF.Properties⟩, index, wasRepaired, none⟩

/-- handlers `validateAndRepairGeometriesParallel`: jobs in submission
order, results in completion order `π`, collected back into submission order
via `resultGeometries[result.Index] = result.GeomFeature` (errored results
included; errors are only logged).  `truncateFull` is the
`utils.TruncateFullGeometry` call (modelled above over concrete polygons;
kept as a parameter here since the stage is generic in the handle type).
The stage's error return mirrors the Go signature; as in the source it is
always `.ok`. -/
def validateAndRepairGeometriesParallel [Inhabited P] (K : Kernel G)
    (truncateFull : G → Except String G) (geomFeatures : List (GeomFeature G P))
    (π : List ℕ) : Except String (List (GeomFeature G P)) :=
  let results := permuteBy π
    (geomFeatures.enum.map (fun p => validateGeometry K truncateFull p.2 p.1))
  .ok (results.foldl
    (fun acc r => acc.set r.Index r.geomF)
    (List.replicate geomFeatures.length default))

/-- The serialization loop at the end of `CleanTopology`: records with a
non-`nil` geometry are re-encoded in list order; `nil`-geometry records are
skipped. -/
def serializeFeatures (toGeoJSON : G → J) (validated : List (GeomFeature G P)) :
    List (Feature J P) :=
  validated.filterMap (fun geomF =>
    geomF.Geom.map (fun g => Feature.mk "Feature" (toGeoJSON g) geomF.Properties))

/-- handlers `CleanTopology`, from successful payload parse to the
serialized feature list: parse (completion order `π₁`), build the spatial
index over the parsed records, snap (completion order `π₂`), validate &
repair (completion order `π₃`), serialize.  The coverage and preservation
audits are read-only and do not affect the output features. -/
def CleanTopologyModel [DecidableEq G] [Inhabited P] (PK : ParseKernel J G)
    (K : Kernel G) (toGeoJSON : G → J) (truncateFull : G → Except String G)
    (π₁ π₂ π₃ : List ℕ) (features : List (Feature J P)) : List (Feature J P) :=
  let snapTolerance := CalculateWGS84ToleranceFromMeters (4/10)
  let geomFeatures := parseGeometriesParallel PK features π₁
  let si := buildIndex K (snapTolerance * 100)
    (geomFeatures.enum.map (fun p => (p.2.Geom, (p.1 : ℤ), p.2.Properties)))
  let cleaned := snapBoundariesParallel K geomFeatures si snapTolerance π₂
  match validateAndRepairGeometriesParallel K truncateFull cleaned π₃ with
  | .error _ => []
  | .ok validated => serializeFeatures toGeoJSON validated

/-! ### Concrete instantiations used by closed counterexamples and witnesses -/

/-- A kernel validity predicate accepting every polygon part. -/
def vTrue : Poly → Bool := fun _ => true

/-- A kernel validity predicate accepting every trial ring polygon. -/
def rTrue : List Point → Bool := fun _ => true

/-- First part of a two-part MultiPolygon (unit square at the origin). -/
def sqA : Poly := ⟨[(0,0),(1,0),(1,1),(0,1),(0,0)], []⟩

/-- Second part of a two-part MultiPolygon (unit square shifted by 2). -/
def sqB : Poly := ⟨[(2,0),(3,0),(3,1),(2,1),(2,0)], []⟩

/-- A polygon with a coordinate (1/3) that truncation actually changes. -/
def polyThird : Poly := ⟨[(1/3,0),(1,0),(1,1),(0,1),(1/3,0)], []⟩

/-- `polyThird` after one truncation at the fixed precision 7. -/
def polyThirdT : Poly :=
  ⟨[(3333333/10000000,0),(1,0),(1,1),(0,1),(3333333/10000000,0)], []⟩

/-- Parse kernel for the pipeline evaluation: raw GeoJSON values are
numeric tags, every value parses to a Polygon-typed non-empty handle. -/
def PKc : ParseKernel ℕ ℕ := ⟨fun j => .ok j, fun _ => 3, fun _ => false⟩

/-- Geometry kernel for the pipeline evaluation: every handle has a
degenerate bounding box at the origin and every pair is far apart, so the
snap stage passes records through unchanged. -/
def Kc : Kernel ℕ :=
  { area := fun _ => 1, hausdorffDistance := fun _ _ => 0, snap := fun _ _ _ => none,
    distance := fun _ _ => 1000, bounds := fun _ => some ⟨0,0,0,0⟩,
    buffer := fun g _ _ => some g, boundary := fun _ => none,
    intersection := fun _ _ => none, geomLength := fun _ => 0,
    overlaps := fun _ _ => false, isValid := fun _ => true, makeValid := fun _ => none }

/-- Two well-formed input features with properties tags 0 and 1. -/
def pipelineInput : List (Feature ℕ ℕ) := [⟨"Feature", 0, 0⟩, ⟨"Feature", 1, 1⟩]

/-- Kernel with a zero-area original (handle 0) whose snap result
(handle 1) is far away (Hausdorff distance 5). -/
def K2 : Kernel ℕ :=
  { area := fun g => if g = 1 then 7 else 0, hausdorffDistance := fun _ _ => 5,
    snap := fun _ _ _ => some 1, distance := fun _ _ => 0, bounds := fun _ => none,
    buffer := fun _ _ _ => none, boundary := fun _ => none,
    intersection := fun _ _ => none, geomLength := fun _ => 0,
    overlaps := fun _ _ => false, isValid := fun _ => true, makeValid := fun _ => none }

/-- Kernel with a positive-area original (handle 0, area 2) whose snap
result (handle 1, area 3) is within the distortion budget. -/
def K2w : Kernel ℕ :=
  { area := fun g => if g = 1 then 3 else 2, hausdorffDistance := fun _ _ => 1/2,
    snap := fun _ _ _ => some 1, distance := fun _ _ => 0, bounds := fun _ => none,
    buffer := fun _ _ _ => none, boundary := fun _ => none,
    intersection := fun _ _ => none, geomLength := fun _ => 0,
    overlaps := fun _ _ => false, isValid := fun _ => true, makeValid := fun _ => none }

/-- Kernel for the coverage-gap counterexample: geometries 0 and 1 are at
distance exactly `tolerance = 1`, their boundaries (10, 11) are also at
distance 1, and the buffered boundaries (20, 21) intersect (handle 30) with
area 5 > tolerance². -/
def K5 : Kernel ℕ :=
  { area := fun g => if g = 30 then 5 else 0, hausdorffDistance := fun _ _ => 0,
    snap := fun _ _ _ => none,
    distance := fun g h => if (g, h) = (0, 1) then 1 else if (g, h) = (10, 11) then 1 else 0,
    bounds := fun _ => none,
    buffer := fun g d _ =>
      if (g, d) = (10, 2) then some 20 else if (g, d) = (11, 2) then some 21 else none,
    boundary := fun g => if g = 0 then some 10 else if g = 1 then some 11 else none,
    intersection := fun g h => if (g, h) = (20, 21) then some 30 else none,
    geomLength := fun g => if g = 30 then 100 else 0,
    overlaps := fun _ _ => false, isValid := fun _ => true, makeValid := fun _ => none }

/-- Like `K5` but with boundary distance 2 (strictly between `tolerance`
and `tolerance*50`), so the audit does report a gap. -/
def K5w : Kernel ℕ :=
  { area := fun g => if g = 30 then 5 else 0, hausdorffDistance := fun _ _ => 0,
    snap := fun _ _ _ => none,
    distance := fun g h => if (g, h) = (0, 1) then 1 else if (g, h) = (10, 11) then 2 else 0,
    bounds := fun _ => none,
    buffer := fun g d _ =>
      if (g, d) = (10, 2) then some 20 else if (g, d) = (11, 2) then some 21 else none,
    boundary := fun g => if g = 0 then some 10 else if g = 1 then some 11 else none,
    intersection := fun g h => if (g, h) = (20, 21) then some 30 else none,
    geomLength := fun g => if g = 30 then 100 else 0,
    overlaps := fun _ _ => false, isValid := fun _ => true, makeValid := fun _ => none }

/-- Kernel for the grid-completeness witness: record geometry 1 sits at the
origin cell, the query geometry 0 buffers to handle 2 spanning cells
(-1..1)², and every distance is 0. -/
def K3w : Kernel ℕ :=
  { area := fun _ => 0, hausdorffDistance := fun _ _ => 0, snap := fun _ _ _ => none,
    distance := fun _ _ => 0,
    bounds := fun g =>
      if g = 1 then some ⟨0,0,0,0⟩ else if g = 2 then some ⟨-1,-1,1,1⟩ else none,
    buffer := fun g d _ => if (g, d) = (0, 1) then some 2 else none,
    boundary := fun _ => none, intersection := fun _ _ => none, geomLength := fun _ => 0,
    overlaps := fun _ _ => false, isValid := fun _ => true, makeValid := fun _ => none }

/-- Kernel for the truncation-failure witness: every geometry is invalid
and repair bumps the handle by one. -/
def K7w : Kernel ℕ :=
  { area := fun _ => 0, hausdorffDistance := fun _ _ => 0, snap := fun _ _ _ => none,
    distance := fun _ _ => 0, bounds := fun _ => none, buffer := fun _ _ _ => none,
    boundary := fun _ => none, intersection := fun _ _ => none, geomLength := fun _ => 0,
    overlaps := fun _ _ => false, isValid := fun _ => false,
    makeValid := fun g => some (g + 1) }

/-! ### Helper lemmas -/

theorem goRound_intCast (n : ℤ) : goRound (n : ℚ) = n := by
  unfold goRound
  split
  · rw [show ((n:ℚ) + 1/2) = ((n:ℤ):ℚ) + 1/2 by norm_num, Int.floor_int_add]
    norm_num
  · rw [show (-(n:ℚ) + 1/2) = (((-n):ℤ):ℚ) + 1/2 by push_cast; ring, Int.floor_int_add]
    norm_num

theorem roundFloat_roundFloat (x : ℚ) (p : ℕ) :
    roundFloat (roundFloat x p) p = roundFloat x p := by
  unfold roundFloat
  have h10 : ((10:ℚ) ^ p) ≠ 0 := by positivity
  rw [div_mul_cancel₀ _ h10, goRound_intCast]

theorem truncateCoordinates_idem (x y : ℚ) :
    truncateCoordinates (truncateCoordinates x y).1 (truncateCoordinates x y).2 =
      truncateCoordinates x y := by
  simp [truncateCoordinates, roundFloat_roundFloat]

theorem truncRing_truncRing (r : List Point) : truncRing (truncRing r) = truncRing r := by
  simp only [truncRing, List.map_map]
  refine List.map_congr_left (fun p _ => ?_)
  simpa using truncateCoordinates_idem p.1 p.2

theorem filterMap_eq_self_of {f : α → Option α} :
    ∀ l : List α, (∀ a ∈ l, f a = some a) → l.filterMap f = l := by
  intro l
  induction l with
  | nil => intro _; rfl
  | cons a t ih =>
    intro h
    rw [List.filterMap_cons, h a (by simp), ih (fun b hb => h b (by simp [hb]))]

theorem cascadedUnionFuel_nil (union : G → G → G) :
    ∀ fuel, cascadedUnionFuel union ([] : List G) fuel = none := by
  intro fuel
  induction fuel with
  | zero => rfl
  | succ n ih => simp [cascadedUnionFuel, ih]

theorem cascadedUnionFuel_some (union : G → G → G) :
    ∀ fuel (gs : List G), gs ≠ [] → gs.length ≤ fuel →
      ∃ g, cascadedUnionFuel union gs fuel = some g := by
  intro fuel
  induction fuel with
  | zero =>
    intro gs hne hlen
    exact absurd (List.length_eq_zero.mp (Nat.le_zero.mp hlen)) hne
  | succ n ih =>
    intro gs hne hlen
    match gs with
    | [g] => exact ⟨g, rfl⟩
    | a :: b :: t =>
      have hmid1 : 1 ≤ (a :: b :: t).length / 2 := by simp; omega
      have hmidlt : (a :: b :: t).length / 2 ≤ (a :: b :: t).length - 1 := by simp; omega
      have hlt : ∃ l, cascadedUnionFuel union ((a :: b :: t).take ((a :: b :: t).length / 2)) n
          = some l := by
        apply ih
        · have : 0 < ((a :: b :: t).take ((a :: b :: t).length / 2)).length := by
            rw [List.length_take]; simp; omega
          exact List.ne_nil_of_length_pos this
        · rw [List.length_take]; simp at hlen ⊢; omega
      have hrt : ∃ r, cascadedUnionFuel union ((a :: b :: t).drop ((a :: b :: t).length / 2)) n
          = some r := by
        apply ih
        · have : 0 < ((a :: b :: t).drop ((a :: b :: t).length / 2)).length := by
            rw [List.length_drop]; simp; omega
          exact List.ne_nil_of_length_pos this
        · rw [List.length_drop]; simp at hlen ⊢; omega
      obtain ⟨l, hl⟩ := hlt
      obtain ⟨r, hr⟩ := hrt
      refine ⟨union l r, ?_⟩
      simp only [cascadedUnionFuel]
      rw [hl, hr]

theorem coverageStep_gapArea (report : CoverageReport) (r : CoverageResult) :
    (coverageStep report r).GapArea = report.GapArea := by
  unfold coverageStep
  split
  · rfl
  · dsimp only
    split <;> split <;> rfl

theorem foldl_coverageStep_gapArea :
    ∀ (l : List CoverageResult) (report : CoverageReport),
      (l.foldl coverageStep report).GapArea = report.GapArea := by
  intro l
  induction l with
  | nil => intro _; rfl
  | cons r t ih => intro report; rw [List.foldl_cons, ih, coverageStep_gapArea]

/-! ### Claim theorems -/

/-- C6: coordinate truncation is idempotent — `roundFloat` at a fixed
precision is idempotent on exact values, and `TruncateSinglePolygon`
applied to one of its own outputs reproduces that output (bit-identical
coordinates, same retained interior rings). -/
theorem truncation_idempotent :
    (∀ (x : ℚ) (p : ℕ), roundFloat (roundFloat x p) p = roundFloat x p)
    ∧ (∀ (vRing : List Point → Bool) (p q : Poly),
        TruncateSinglePolygon vRing p = some q → TruncateSinglePolygon vRing q = some q) := by
  constructor
  · exact roundFloat_roundFloat
  · intro vRing p q h
    unfold TruncateSinglePolygon at h ⊢
    by_cases hl : 3 < p.exterior.length
    · rw [if_pos hl] at h
      set step : List Point → Option (List Point) := fun ring =>
        if 3 < ring.length then
          let rc := truncRing ring
          if rc.length ≠ 0 ∧ vRing rc then some rc else none
        else none with hstep
      obtain rfl : (⟨truncRing p.exterior, p.interiors.filterMap step⟩ : Poly) = q :=
        Option.some.inj h
      have hexlen : (truncRing p.exterior).length = p.exterior.length := by
        simp [truncRing]
      have hfix : ∀ rc ∈ p.interiors.filterMap step, step rc = some rc := by
        intro rc hrc
        obtain ⟨ring, _, hscr⟩ := List.mem_filterMap.mp hrc
        rw [hstep] at hscr
        dsimp only at hscr
        by_cases h3 : 3 < ring.length
        · rw [if_pos h3] at hscr
          by_cases hc : (truncRing ring).length ≠ 0 ∧ vRing (truncRing ring)
          · rw [if_pos hc] at hscr
            obtain rfl : truncRing ring = rc := Option.some.inj hscr
            have hrclen : (truncRing ring).length = ring.length := by simp [truncRing]
            rw [hstep]
            dsimp only
            rw [if_pos (by rw [hrclen]; exact h3)]
            simp only [truncRing_truncRing]
            rw [if_pos hc]
          · rw [if_neg hc] at hscr; exact absurd hscr (by simp)
        · rw [if_neg h3] at hscr; exact absurd hscr (by simp)
      dsimp only
      rw [if_pos (by rw [hexlen]; exact hl)]
      simp only [truncRing_truncRing]
      rw [filterMap_eq_self_of _ hfix]
    · rw [if_neg hl] at h; exact absurd h (by simp)

/-- C6 witness: truncating the already-truncated polygon `polyThirdT`
(the output of truncating `polyThird`) reproduces it exactly. -/
theorem truncation_idempotent_witness :
    TruncateSinglePolygon rTrue polyThirdT = some polyThirdT :=
  truncation_idempotent.2 rTrue polyThird polyThirdT (by
    norm_num [TruncateSinglePolygon, truncRing, truncateCoordinates, roundFloat, goRound,
      PRECISION, polyThird, polyThirdT, rTrue])

/-- C9: `CascadedUnion` reaches its base case for every non-empty input
(within fuel equal to the list length), and for the empty list no amount of
fuel reaches a base case — both recursive calls recurse on the empty list
again. -/
theorem cascadedUnion_termination (union : G → G → G) :
    (∀ gs : List G, gs ≠ [] → ∃ fuel g, cascadedUnionFuel union gs fuel = some g)
    ∧ (∀ fuel, cascadedUnionFuel union ([] : List G) fuel = none) := by
  refine ⟨fun gs hne => ?_, cascadedUnionFuel_nil union⟩
  obtain ⟨g, hg⟩ := cascadedUnionFuel_some union gs.length gs hne le_rfl
  exact ⟨gs.length, g, hg⟩

/-- C9 witness: the union of the non-empty list `[1, 2, 3]` is reached. -/
theorem cascadedUnion_termination_witness :
    ∃ fuel g, cascadedUnionFuel (fun a b => a + b) [1, 2, 3] fuel = some g :=
  (cascadedUnion_termination (fun a b : ℕ => a + b)).1 [1, 2, 3] (by simp)

/-- C8: the coverage report's `GapArea` field is 0 on every input — no code
path of `validateCoverageParallel` ever assigns it, even when gaps are
counted. -/
theorem coverage_gapArea_zero (K : Kernel G) (geomFeatures : List (GeomFeature G P))
    (tolerance : ℚ) (π : List ℕ) :
    (validateCoverageParallel K geomFeatures tolerance π).GapArea = 0 := by
  unfold validateCoverageParallel
  split
  · rfl
  · dsimp only
    split
    · rfl
    · rw [foldl_coverageStep_gapArea]; rfl

/-- C2 counterexample: with a zero-area original geometry (handle 0), the
snap to handle 1 is accepted even though the spec's distortion-score
formula `|ΔArea|/originalArea + Hausdorff` evaluates (under the ℚ
convention `x/0 = 0`) to 5, far above the budget 1/10 — the code's score is
0 because `calculateGeometryDistortion` short-circuits on zero area. -/
theorem conservativeSnap_zero_area_cx :
    conservativeSnap K2 (some 0) (some 9) 1 (1/10) = (some 1, true)
    ∧ specDistortionScore K2 0 1 = 5
    ∧ ¬ specDistortionScore K2 0 1 ≤ 1/10 := by
  refine ⟨?_, ?_, ?_⟩
  · norm_num [conservativeSnap, calculateGeometryDistortion, K2]
  · norm_num [specDistortionScore, K2]
  · norm_num [specDistortionScore, K2]

/-- C2 (amended): an accepted snap has code distortion score (the value of
`calculateGeometryDistortion`) at most `maxDistortion`; that score equals
the spec's `|ΔArea|/originalArea + Hausdorff` whenever the original area is
positive (it is 0 when the original area is 0 or a handle is nil); and any
rejection returns the input handle itself with `accepted = false`. -/
theorem conservativeSnap_safety (K : Kernel G) (g t : G) (tolerance maxDistortion : ℚ) :
    ((conservativeSnap K (some g) (some t) tolerance maxDistortion).2 = true →
      calculateGeometryDistortion K (some g)
        (conservativeSnap K (some g) (some t) tolerance maxDistortion).1 ≤ maxDistortion)
    ∧ (0 < K.area g → ∀ m, calculateGeometryDistortion K (some g) (some m) =
        |K.area m - K.area g| / K.area g + K.hausdorffDistance g m)
    ∧ ((conservativeSnap K (some g) (some t) tolerance maxDistortion).2 = false →
      (conservativeSnap K (some g) (some t) tolerance maxDistortion).1 = some g) := by
  refine ⟨?_, ?_, ?_⟩
  · intro hacc
    unfold conservativeSnap at hacc ⊢
    dsimp only at hacc ⊢
    cases hsnap : K.snap g t tolerance with
    | none => rw [hsnap] at hacc; simp at hacc
    | some s =>
      rw [hsnap] at hacc
      dsimp only at hacc ⊢
      by_cases hd : calculateGeometryDistortion K (some g) (some s) > maxDistortion
      · rw [if_pos hd] at hacc; simp at hacc
      · rw [if_neg hd] at hacc ⊢
        exact not_lt.mp hd
  · intro harea m
    unfold calculateGeometryDistortion
    dsimp only
    rw [if_neg (ne_of_gt harea)]
    congr 1
    rw [show |K.area m - K.area g| / K.area g = |(K.area m - K.area g) / K.area g| by
      rw [abs_div, abs_of_pos harea]]
    split
    · exact (abs_of_neg (by assumption)).symm
    · exact (abs_of_nonneg (not_lt.mp (by assumption))).symm
  · intro hrej
    unfold conservativeSnap at hrej ⊢
    dsimp only at hrej ⊢
    cases hsnap : K.snap g t tolerance with
    | none => rfl
    | some s =>
      rw [hsnap] at hrej
      dsimp only at hrej ⊢
      by_cases hd : calculateGeometryDistortion K (some g) (some s) > maxDistortion
      · rw [if_pos hd]
      · rw [if_neg hd] at hrej; simp at hrej

/-- C2 witness: with kernel `K2w` (area 2 → 3, Hausdorff 1/2) the snap is
accepted and the theorem yields the score bound and the spec formula. -/
theorem conservativeSnap_safety_witness :
    calculateGeometryDistortion K2w (some 0)
        (conservativeSnap K2w (some 0) (some 9) 1 2).1 ≤ 2
    ∧ calculateGeometryDistortion K2w (some 0) (some 1) =
        |K2w.area 1 - K2w.area 0| / K2w.area 0 + K2w.hausdorffDistance 0 1 :=
  ⟨(conservativeSnap_safety K2w 0 9 1 2).1
      (by norm_num [conservativeSnap, calculateGeometryDistortion, K2w]),
   (conservativeSnap_safety K2w 0 9 1 2).2.1 (by norm_num [K2w]) 1⟩

/-- C10: `calculateGeometryDistortion` is 0 whenever a handle is nil or the
original area is 0 (for every kernel, hence without consulting the
Hausdorff distance), and consequently `conservativeSnap` accepts every
kernel-completed snap of a zero-area original under any non-negative
distortion budget, however far the result moved. -/
theorem distortion_zero_area_accepts (K : Kernel G) :
    (∀ t, calculateGeometryDistortion K none t = 0)
    ∧ (∀ s, calculateGeometryDistortion K s none = 0)
    ∧ (∀ o m, K.area o = 0 → calculateGeometryDistortion K (some o) (some m) = 0)
    ∧ (∀ g t tolerance maxDistortion s, K.area g = 0 → 0 ≤ maxDistortion →
        K.snap g t tolerance = some s →
        conservativeSnap K (some g) (some t) tolerance maxDistortion = (some s, true)) := by
  refine ⟨fun t => by cases t <;> rfl, fun s => by cases s <;> rfl, ?_, ?_⟩
  · intro o m h
    unfold calculateGeometryDistortion
    dsimp only
    rw [if_pos h]
  · intro g t tolerance maxDistortion s harea hmax hsnap
    unfold conservativeSnap
    dsimp only
    rw [hsnap]
    dsimp only
    have h0 : calculateGeometryDistortion K (some g) (some s) = 0 := by
      unfold calculateGeometryDistortion
      dsimp only
      rw [if_pos harea]
    rw [h0, if_neg (not_lt.mpr hmax)]

/-- C10 witness: kernel `K2` has a zero-area original (handle 0), a
completed snap to handle 1 at Hausdorff distance 5, and budget 1/10 — the
snap is accepted. -/
theorem distortion_zero_area_accepts_witness :
    conservativeSnap K2 (some 0) (some 9) 1 (1/10) = (some 1, true) :=
  (distortion_zero_area_accepts K2).2.2.2 0 9 1 (1/10) 1 rfl (by norm_num) rfl

theorem getElem?_foldl_set_of_ne {R A : Type} (idx : R → ℕ) (val : R → A) (i : ℕ) :
    ∀ (rs : List R) (init : List A), (∀ r ∈ rs, idx r ≠ i) →
      (rs.foldl (fun a r => a.set (idx r) (val r)) init)[i]? = init[i]? := by
  intro rs
  induction rs with
  | nil => intro init _; rfl
  | cons r t ih =>
    intro init h
    rw [List.foldl_cons, ih _ (fun r' hr' => h r' (by simp [hr'])),
      List.getElem?_set_ne (h r (by simp))]

theorem getElem?_foldl_set {R A : Type} (idx : R → ℕ) (val : R → A) :
    ∀ (rs : List R) (init : List A) (i : ℕ) (r : R), r ∈ rs → idx r = i →
      (∀ r' ∈ rs, idx r' = i → r' = r) → i < init.length →
      (rs.foldl (fun a x => a.set (idx x) (val x)) init)[i]? = some (val r) := by
  intro rs
  induction rs with
  | nil => intro _ _ _ hr; exact absurd hr (by simp)
  | cons x t ih =>
    intro init i r hr hidx huniq hlen
    rw [List.foldl_cons]
    by_cases hmem : r ∈ t
    · exact ih _ i r hmem hidx (fun r' hr' h' => huniq r' (by simp [hr']) h')
        (by rw [List.length_set]; exact hlen)
    · have hx : x = r := by
        rcases List.mem_cons.mp hr with h | h
        · exact h.symm
        · exact absurd h hmem
      subst hx
      rw [getElem?_foldl_set_of_ne idx val i t _ (fun r' hr' => by
        intro hcon
        exact hmem (huniq r' (by simp [hr']) hcon ▸ hr'))]
      rw [hidx, List.getElem?_set_self hlen]

theorem filterMap_getElem?_range :
    ∀ l : List α, (List.range l.length).filterMap (fun k => l[k]?) = l := by
  intro l
  induction l with
  | nil => rfl
  | cons a t ih =>
    simp only [List.length_cons, List.range_succ_eq_map, List.filterMap_cons,
      List.filterMap_map, List.getElem?_cons_zero]
    have hc : ((fun k => (a :: t)[k]?) ∘ Nat.succ) = (fun k => t[k]?) := by
      funext k; simp
    rw [hc, ih]

theorem permuteBy_perm (π : List ℕ) (l : List α) (h : π.Perm (List.range l.length)) :
    (permuteBy π l).Perm l := by
  unfold permuteBy
  have := h.filterMap (fun k => l[k]?)
  rw [filterMap_getElem?_range] at this
  exact this

theorem validateGeometry_index (K : Kernel G) (truncateFull : G → Except String G)
    (gf : GeomFeature G P) (i : ℕ) :
    (validateGeometry K truncateFull gf i).Index = i := by
  unfold validateGeometry
  cases gf.Geom with
  | none => rfl
  | some g =>
    dsimp only
    cases truncateFull (repairOf K g).1 <;> rfl

/-- C7: in the Validate & Repair stage, a record whose truncation call
fails keeps its pre-truncation (post-repair) geometry and its properties at
its own position in the stage output, and the stage still returns
successfully (the error is only carried in the logged per-record result). -/
theorem truncation_failure_passthrough [Inhabited P] (K : Kernel G)
    (truncateFull : G → Except String G) (features : List (GeomFeature G P))
    (π : List ℕ) (i : ℕ) (gf : GeomFeature G P) (g : G) (e : String)
    (hπ : π.Perm (List.range features.length))
    (hi : features[i]? = some gf)
    (hg : gf.Geom = some g)
    (he : truncateFull (repairOf K g).1 = .error e) :
    ∃ out, validateAndRepairGeometriesParallel K truncateFull features π = .ok out
      ∧ out[i]? = some ⟨some (repairOf K g).1, gf.Properties⟩ := by
  refine ⟨_, rfl, ?_⟩
  have hlen : i < features.length := by
    by_contra hcon
    push_neg at hcon
    rw [List.getElem?_eq_none hcon] at hi
    exact Option.noConfusion hi
  set work : ℕ × GeomFeature G P → ValidationResult G P :=
    fun p => validateGeometry K truncateFull p.2 p.1 with hwork
  have hjob : (i, gf) ∈ features.enum := List.mem_enum_iff_getElem?.mpr hi
  have hr : work (i, gf) =
      ⟨⟨some (repairOf K g).1, gf.Properties⟩, i, (repairOf K g).2, some e⟩ := by
    rw [hwork]
    dsimp only
    unfold validateGeometry
    rw [hg]
    dsimp only
    rcases hrep : repairOf K g with ⟨rg, wr⟩
    have : truncateFull rg = .error e := by rw [← he, hrep]
    rw [this]
  have hperm : (permuteBy π (features.enum.map work)).Perm (features.enum.map work) := by
    apply permuteBy_perm
    rw [List.length_map, List.enum_length]
    exact hπ
  have hmem : work (i, gf) ∈ permuteBy π (features.enum.map work) :=
    hperm.mem_iff.mpr (List.mem_map_of_mem work hjob)
  have huniq : ∀ r' ∈ permuteBy π (features.enum.map work),
      r'.Index = i → r' = work (i, gf) := by
    intro r' hr' hidx
    obtain ⟨⟨j, gfj⟩, hjmem, rfl⟩ := List.mem_map.mp (hperm.mem_iff.mp hr')
    have hj : j = i := by
      have := validateGeometry_index K truncateFull gfj j
      rw [hwork] at hidx
      dsimp only at hidx
      rw [this] at hidx
      exact hidx
    subst hj
    have : features[j]? = some gfj := List.mem_enum_iff_getElem?.mp hjmem
    rw [hi] at this
    obtain rfl : gf = gfj := Option.some.inj this
    rfl
  have hset := getElem?_foldl_set (fun r : ValidationResult G P => r.Index)
    (fun r => r.geomF) (permuteBy π (features.enum.map work))
    (List.replicate features.length default) i (work (i, gf)) hmem (by rw [hr]) huniq
    (by rw [List.length_replicate]; exact hlen)
  rw [hr] at hset
  exact hset

/-- C7 witness: with kernel `K7w` (everything invalid, repair bumps the
handle) and an always-failing truncation, the single record keeps its
repaired geometry (handle 6) and its properties (77), and the stage
returns `.ok`. -/
theorem truncation_failure_passthrough_witness :
    ∃ out, validateAndRepairGeometriesParallel K7w
        (fun _ => .error "no valid polygons found")
        [(⟨some 5, 77⟩ : GeomFeature ℕ ℕ)] [0] = .ok out
      ∧ out[0]? = some ⟨some (repairOf K7w 5).1, 77⟩ :=
  truncation_failure_passthrough K7w (fun _ => .error "no valid polygons found")
    [⟨some 5, 77⟩] [0] 0 ⟨some 5, 77⟩ 5 "no valid polygons found"
    (by simp [List.range_succ]) rfl rfl rfl

theorem mem_cellRange {lo hi c : ℤ} : c ∈ cellRange lo hi ↔ lo ≤ c ∧ c ≤ hi := by
  simp only [cellRange, List.mem_map, List.mem_range]
  constructor
  · rintro ⟨k, hk, rfl⟩
    omega
  · rintro ⟨h1, h2⟩
    exact ⟨(c - lo).toNat, by omega, by omega⟩

theorem mem_cellPairs {a b a' b' : ℤ} {c : ℤ × ℤ} :
    c ∈ cellPairs a b a' b' ↔ (a ≤ c.1 ∧ c.1 ≤ b) ∧ (a' ≤ c.2 ∧ c.2 ≤ b') := by
  cases c with
  | mk x y =>
    simp only [cellPairs, List.mem_flatMap, List.mem_map, mem_cellRange, Prod.mk.injEq]
    constructor
    · rintro ⟨x', hx', y', hy', rfl, rfl⟩
      exact ⟨hx', hy'⟩
    · rintro ⟨h1, h2⟩
      exact ⟨x, h1, y, h2, rfl, rfl⟩

theorem foldl_gridAppend_preserve (r : IndexedGeometry G P) :
    ∀ (cells : List (ℤ × ℤ)) (si : SpatialIndex G P) (c : ℤ × ℤ) (x : IndexedGeometry G P),
      x ∈ si.grid c → x ∈ ((cells.foldl (fun si2 cc => gridAppend si2 r cc) si).grid c) := by
  intro cells
  induction cells with
  | nil => intro si c x h; exact h
  | cons cc t ih =>
    intro si c x h
    rw [List.foldl_cons]
    apply ih
    unfold gridAppend
    dsimp only
    split
    · exact List.mem_append_left _ h
    · exact h

theorem foldl_gridAppend_adds (r : IndexedGeometry G P) :
    ∀ (cells : List (ℤ × ℤ)) (si : SpatialIndex G P) (c : ℤ × ℤ), c ∈ cells →
      r ∈ ((cells.foldl (fun si2 cc => gridAppend si2 r cc) si).grid c) := by
  intro cells
  induction cells with
  | nil => intro si c h; exact absurd h (by simp)
  | cons cc t ih =>
    intro si c h
    rw [List.foldl_cons]
    rcases List.mem_cons.mp h with rfl | hmem
    · apply foldl_gridAppend_preserve
      unfold gridAppend
      dsimp only
      rw [if_pos rfl]
      exact List.mem_append_right _ (by simp)
    · exact ih _ c hmem

theorem foldl_gridAppend_sub (r : IndexedGeometry G P) :
    ∀ (cells : List (ℤ × ℤ)) (si : SpatialIndex G P) (c : ℤ × ℤ) (x : IndexedGeometry G P),
      x ∈ ((cells.foldl (fun si2 cc => gridAppend si2 r cc) si).grid c) →
      x ∈ si.grid c ∨ x = r := by
  intro cells
  induction cells with
  | nil => intro si c x h; exact Or.inl h
  | cons cc t ih =>
    intro si c x h
    rw [List.foldl_cons] at h
    rcases ih _ c x h with hin | hr
    · unfold gridAppend at hin
      dsimp only at hin
      by_cases hcc : c = cc
      · rw [if_pos hcc] at hin
        rcases List.mem_append.mp hin with h1 | h2
        · exact Or.inl h1
        · exact Or.inr (by simpa using h2)
      · rw [if_neg hcc] at hin
        exact Or.inl hin
    · exact Or.inr hr

theorem foldl_gridAppend_geometries (r : IndexedGeometry G P) :
    ∀ (cells : List (ℤ × ℤ)) (si : SpatialIndex G P),
      (cells.foldl (fun si2 cc => gridAppend si2 r cc) si).geometries = si.geometries := by
  intro cells
  induction cells with
  | nil => intro si; rfl
  | cons cc t ih => intro si; rw [List.foldl_cons, ih]; rfl

theorem foldl_gridAppend_cellSize (r : IndexedGeometry G P) :
    ∀ (cells : List (ℤ × ℤ)) (si : SpatialIndex G P),
      (cells.foldl (fun si2 cc => gridAppend si2 r cc) si).cellSize = si.cellSize := by
  intro cells
  induction cells with
  | nil => intro si; rfl
  | cons cc t ih => intro si; rw [List.foldl_cons, ih]; rfl

theorem addToGrid_preserve (K : Kernel G) (si : SpatialIndex G P)
    (r x : IndexedGeometry G P) (c : ℤ × ℤ) (h : x ∈ si.grid c) :
    x ∈ (addToGrid K si r).grid c := by
  unfold addToGrid
  cases K.bounds r.Geom with
  | none => exact h
  | some b => exact foldl_gridAppend_preserve r _ si c x h

theorem addToGrid_mem (K : Kernel G) (si : SpatialIndex G P)
    (r : IndexedGeometry G P) (b : Box) (c : ℤ × ℤ)
    (hb : K.bounds r.Geom = some b)
    (hc : c ∈ cellPairs ⌊b.MinX / si.cellSize⌋ ⌊b.MaxX / si.cellSize⌋
      ⌊b.MinY / si.cellSize⌋ ⌊b.MaxY / si.cellSize⌋) :
    r ∈ (addToGrid K si r).grid c := by
  unfold addToGrid
  rw [hb]
  exact foldl_gridAppend_adds r _ si c (by
    rw [mem_cellPairs] at hc ⊢
    exact hc)

theorem addToGrid_sub (K : Kernel G) (si : SpatialIndex G P)
    (r x : IndexedGeometry G P) (c : ℤ × ℤ)
    (h : x ∈ (addToGrid K si r).grid c) : x ∈ si.grid c ∨ x = r := by
  unfold addToGrid at h
  cases hb : K.bounds r.Geom with
  | none => rw [hb] at h; exact Or.inl h
  | some b =>
    rw [hb] at h
    exact foldl_gridAppend_sub r _ si c x h

theorem addToGrid_geometries (K : Kernel G) (si : SpatialIndex G P)
    (r : IndexedGeometry G P) : (addToGrid K si r).geometries = si.geometries := by
  unfold addToGrid
  cases K.bounds r.Geom with
  | none => rfl
  | some b => exact foldl_gridAppend_geometries r _ si

theorem addToGrid_cellSize (K : Kernel G) (si : SpatialIndex G P)
    (r : IndexedGeometry G P) : (addToGrid K si r).cellSize = si.cellSize := by
  unfold addToGrid
  cases K.bounds r.Geom with
  | none => rfl
  | some b => exact foldl_gridAppend_cellSize r _ si

theorem AddGeometry_cellSize (K : Kernel G) (si : SpatialIndex G P)
    (og : Option G) (idx : ℤ) (p : P) :
    (AddGeometry K si og idx p).cellSize = si.cellSize := by
  unfold AddGeometry
  cases og with
  | none => rfl
  | some g => rw [addToGrid_cellSize]

theorem AddGeometry_preserve (K : Kernel G) (si : SpatialIndex G P)
    (og : Option G) (idx : ℤ) (p : P) (x : IndexedGeometry G P) (c : ℤ × ℤ)
    (h : x ∈ si.grid c) : x ∈ (AddGeometry K si og idx p).grid c := by
  unfold AddGeometry
  cases og with
  | none => exact h
  | some g => exact addToGrid_preserve K _ _ x c h

theorem AddGeometry_mem (K : Kernel G) (si : SpatialIndex G P)
    (g : G) (idx : ℤ) (p : P) (b : Box) (c : ℤ × ℤ)
    (hb : K.bounds g = some b)
    (hc : c ∈ cellPairs ⌊b.MinX / si.cellSize⌋ ⌊b.MaxX / si.cellSize⌋
      ⌊b.MinY / si.cellSize⌋ ⌊b.MaxY / si.cellSize⌋) :
    (⟨g, idx, p⟩ : IndexedGeometry G P) ∈ (AddGeometry K si (some g) idx p).grid c := by
  unfold AddGeometry
  exact addToGrid_mem K _ _ b c hb hc

theorem AddGeometry_sub (K : Kernel G) (si : SpatialIndex G P)
    (og : Option G) (idx : ℤ) (p : P)
    (hsub : ∀ c x, x ∈ si.grid c → x ∈ si.geometries) :
    ∀ c x, x ∈ (AddGeometry K si og idx p).grid c →
      x ∈ (AddGeometry K si og idx p).geometries := by
  intro c x h
  unfold AddGeometry at h ⊢
  cases og with
  | none => exact hsub c x h
  | some g =>
    rw [addToGrid_geometries]
    dsimp only
    rcases addToGrid_sub K _ _ x c h with hin | rfl
    · exact List.mem_append_left _ (hsub c x hin)
    · exact List.mem_append_right _ (by simp)

theorem foldl_AddGeometry_cellSize (K : Kernel G) :
    ∀ (inserts : List (Option G × ℤ × P)) (si : SpatialIndex G P),
      (inserts.foldl (fun si2 t => AddGeometry K si2 t.1 t.2.1 t.2.2) si).cellSize
        = si.cellSize := by
  intro inserts
  induction inserts with
  | nil => intro si; rfl
  | cons t ts ih => intro si; rw [List.foldl_cons, ih, AddGeometry_cellSize]

theorem foldl_AddGeometry_preserve (K : Kernel G) :
    ∀ (inserts : List (Option G × ℤ × P)) (si : SpatialIndex G P)
      (x : IndexedGeometry G P) (c : ℤ × ℤ), x ∈ si.grid c →
      x ∈ ((inserts.foldl (fun si2 t => AddGeometry K si2 t.1 t.2.1 t.2.2) si).grid c) := by
  intro inserts
  induction inserts with
  | nil => intro si x c h; exact h
  | cons t ts ih =>
    intro si x c h
    rw [List.foldl_cons]
    exact ih _ x c (AddGeometry_preserve K si t.1 t.2.1 t.2.2 x c h)

theorem foldl_AddGeometry_mem (K : Kernel G) :
    ∀ (inserts : List (Option G × ℤ × P)) (si : SpatialIndex G P)
      (g : G) (idx : ℤ) (p : P) (b : Box) (c : ℤ × ℤ),
      (some g, idx, p) ∈ inserts → K.bounds g = some b →
      c ∈ cellPairs ⌊b.MinX / si.cellSize⌋ ⌊b.MaxX / si.cellSize⌋
        ⌊b.MinY / si.cellSize⌋ ⌊b.MaxY / si.cellSize⌋ →
      (⟨g, idx, p⟩ : IndexedGeometry G P) ∈
        ((inserts.foldl (fun si2 t => AddGeometry K si2 t.1 t.2.1 t.2.2) si).grid c) := by
  intro inserts
  induction inserts with
  | nil => intro si g idx p b c h; exact absurd h (by simp)
  | cons t ts ih =>
    intro si g idx p b c hmem hb hc
    rw [List.foldl_cons]
    rcases List.mem_cons.mp hmem with rfl | hmem'
    · exact foldl_AddGeometry_preserve K ts _ _ c (AddGeometry_mem K si g idx p b c hb hc)
    · apply ih _ g idx p b c hmem' hb
      rw [AddGeometry_cellSize]
      exact hc

theorem foldl_AddGeometry_sub (K : Kernel G) :
    ∀ (inserts : List (Option G × ℤ × P)) (si : SpatialIndex G P),
      (∀ c x, x ∈ si.grid c → x ∈ si.geometries) →
      ∀ c x, x ∈ ((inserts.foldl (fun si2 t => AddGeometry K si2 t.1 t.2.1 t.2.2) si).grid c) →
        x ∈ (inserts.foldl (fun si2 t => AddGeometry K si2 t.1 t.2.1 t.2.2) si).geometries := by
  intro inserts
  induction inserts with
  | nil => intro si h c x hx; exact h c x hx
  | cons t ts ih =>
    intro si h c x hx
    rw [List.foldl_cons] at hx ⊢
    exact ih _ (AddGeometry_sub K si t.1 t.2.1 t.2.2 h) c x hx

theorem buildIndex_cellSize (K : Kernel G) (cs : ℚ) (inserts : List (Option G × ℤ × P)) :
    (buildIndex K cs inserts).cellSize = cs := by
  unfold buildIndex
  rw [foldl_AddGeometry_cellSize]
  rfl

theorem buildIndex_sub (K : Kernel G) (cs : ℚ) (inserts : List (Option G × ℤ × P))
    (c : ℤ × ℤ) (x : IndexedGeometry G P) (h : x ∈ (buildIndex K cs inserts).grid c) :
    x ∈ (buildIndex K cs inserts).geometries := by
  unfold buildIndex at h ⊢
  exact foldl_AddGeometry_sub K inserts _ (fun c x hx => absurd hx (by simp [NewSpatialIndex]))
    c x h

theorem mapSet_mem_self (m : List (ℤ × IndexedGeometry G P)) (B : IndexedGeometry G P) :
    (B.Index, B) ∈ mapSet m B := by
  unfold mapSet
  split
  · next hex =>
    obtain ⟨p, hp, hpi⟩ := hex
    have heq : (fun q : ℤ × IndexedGeometry G P =>
        if q.1 = B.Index then (q.1, B) else q) p = (B.Index, B) := by
      dsimp only
      rw [if_pos hpi, hpi]
    exact heq ▸ List.mem_map_of_mem _ hp
  · exact List.mem_append_right _ (by simp)

theorem mapSet_mem_preserve (m : List (ℤ × IndexedGeometry G P))
    (B r : IndexedGeometry G P) (hne : r.Index ≠ B.Index)
    (h : (B.Index, B) ∈ m) : (B.Index, B) ∈ mapSet m r := by
  unfold mapSet
  split
  · have heq : (fun q : ℤ × IndexedGeometry G P =>
        if q.1 = r.Index then (q.1, r) else q) (B.Index, B) = (B.Index, B) := by
      dsimp only
      rw [if_neg (fun hc : B.Index = r.Index => hne hc.symm)]
    exact heq ▸ List.mem_map_of_mem _ h
  · exact List.mem_append_left _ h

theorem candFold_preserve [DecidableEq G] (geom : G) (B : IndexedGeometry G P) :
    ∀ (entries : List (IndexedGeometry G P)) (m : List (ℤ × IndexedGeometry G P)),
      (B.Index, B) ∈ m → (∀ x ∈ entries, x.Index = B.Index → x = B) →
      (B.Index, B) ∈ entries.foldl
        (fun m2 candidate => if candidate.Geom ≠ geom then mapSet m2 candidate else m2) m := by
  intro entries
  induction entries with
  | nil => intro m hm _; exact hm
  | cons cand t ih =>
    intro m hm huniq
    rw [List.foldl_cons]
    apply ih _ ?_ (fun x hx => huniq x (by simp [hx]))
    split
    · by_cases hidx : cand.Index = B.Index
      · rw [huniq cand (by simp) hidx]
        exact mapSet_mem_self m B
      · exact mapSet_mem_preserve m B cand hidx hm
    · exact hm

theorem candFold_adds [DecidableEq G] (geom : G) (B : IndexedGeometry G P)
    (hBg : B.Geom ≠ geom) :
    ∀ (entries : List (IndexedGeometry G P)) (m : List (ℤ × IndexedGeometry G P)),
      B ∈ entries → (∀ x ∈ entries, x.Index = B.Index → x = B) →
      (B.Index, B) ∈ entries.foldl
        (fun m2 candidate => if candidate.Geom ≠ geom then mapSet m2 candidate else m2) m := by
  intro entries
  induction entries with
  | nil => intro m hm _; exact absurd hm (by simp)
  | cons cand t ih =>
    intro m hmem huniq
    rw [List.foldl_cons]
    rcases List.mem_cons.mp hmem with rfl | hmem'
    · apply candFold_preserve geom B t _ ?_ (fun x hx => huniq x (by simp [hx]))
      rw [if_pos hBg]
      exact mapSet_mem_self m B
    · exact ih _ hmem' (fun x hx => huniq x (by simp [hx]))

/-- C3: grid broad-phase completeness.  If record `B` was inserted into the
index (with usable bounds and an index unique among the inserted records),
its handle differs from the query handle `A`, the kernel's buffer/bounds
calls succeed with a box that covers `A`'s points expanded by `T` (witnessed
by a point `pa` of `A` and a point `pb` of `B` within `T` of each other in
each axis, `pb` lying inside `B`'s bounding box), and the true distance
between `A` and `B` is at most `T`, then `FindNeighbors` returns `B` — the
grid produces no false negatives. -/
theorem findNeighbors_complete [DecidableEq G]
    (K : Kernel G) (inserts : List (Option G × ℤ × P)) (cs T : ℚ) (A : G)
    (B : IndexedGeometry G P) (bB bufB : Box) (buf : G) (pa pb : ℚ × ℚ)
    (hcs : 0 < cs)
    (hmem : (some B.Geom, B.Index, B.Properties) ∈ inserts)
    (huniq : ∀ r ∈ (buildIndex K cs inserts).geometries, r.Index = B.Index → r = B)
    (hneq : B.Geom ≠ A)
    (hbB : K.bounds B.Geom = some bB)
    (hbuf : K.buffer A T 8 = some buf)
    (hbbuf : K.bounds buf = some bufB)
    (hpbx : bB.MinX ≤ pb.1 ∧ pb.1 ≤ bB.MaxX)
    (hpby : bB.MinY ≤ pb.2 ∧ pb.2 ≤ bB.MaxY)
    (hclosex : |pa.1 - pb.1| ≤ T) (hclosey : |pa.2 - pb.2| ≤ T)
    (hbufx : bufB.MinX ≤ pa.1 - T ∧ pa.1 + T ≤ bufB.MaxX)
    (hbufy : bufB.MinY ≤ pa.2 - T ∧ pa.2 + T ≤ bufB.MaxY)
    (hdist : K.distance A B.Geom ≤ T) :
    B ∈ FindNeighbors K (buildIndex K cs inserts) A T := by
  have hmono : ∀ a b : ℚ, a ≤ b → ⌊a / cs⌋ ≤ ⌊b / cs⌋ := fun a b h =>
    Int.floor_le_floor (by gcongr)
  have hax := abs_le.mp hclosex
  have hay := abs_le.mp hclosey
  have hsize : (buildIndex K cs inserts).cellSize = cs := buildIndex_cellSize K cs inserts
  set si := buildIndex K cs inserts with hsi
  set cq : ℤ × ℤ := (⌊pb.1 / cs⌋, ⌊pb.2 / cs⌋) with hcq
  have hBgrid : B ∈ si.grid cq := by
    have hrange : cq ∈ cellPairs ⌊bB.MinX / cs⌋ ⌊bB.MaxX / cs⌋
        ⌊bB.MinY / cs⌋ ⌊bB.MaxY / cs⌋ := by
      rw [mem_cellPairs]
      exact ⟨⟨hmono _ _ hpbx.1, hmono _ _ hpbx.2⟩, ⟨hmono _ _ hpby.1, hmono _ _ hpby.2⟩⟩
    have := foldl_AddGeometry_mem K inserts (NewSpatialIndex G P cs)
      B.Geom B.Index B.Properties bB cq hmem hbB (by
        show cq ∈ cellPairs ⌊bB.MinX / (NewSpatialIndex G P cs).cellSize⌋ _ _ _
        exact hrange)
    exact this
  have hquery : cq ∈ cellPairs ⌊bufB.MinX / si.cellSize⌋ ⌊bufB.MaxX / si.cellSize⌋
      ⌊bufB.MinY / si.cellSize⌋ ⌊bufB.MaxY / si.cellSize⌋ := by
    rw [hsize, mem_cellPairs]
    refine ⟨⟨hmono _ _ ?_, hmono _ _ ?_⟩, ⟨hmono _ _ ?_, hmono _ _ ?_⟩⟩
    · linarith [hbufx.1, hax.2]
    · linarith [hbufx.2, hax.1]
    · linarith [hbufy.1, hay.2]
    · linarith [hbufy.2, hay.1]
  unfold FindNeighbors
  rw [hbuf]
  dsimp only
  rw [hbbuf]
  dsimp only
  apply List.mem_filter.mpr
  constructor
  · have hentries : B ∈ (cellPairs ⌊bufB.MinX / si.cellSize⌋ ⌊bufB.MaxX / si.cellSize⌋
        ⌊bufB.MinY / si.cellSize⌋ ⌊bufB.MaxY / si.cellSize⌋).flatMap si.grid :=
      List.mem_flatMap.mpr ⟨cq, hquery, hBgrid⟩
    have huniq' : ∀ x ∈ (cellPairs ⌊bufB.MinX / si.cellSize⌋ ⌊bufB.MaxX / si.cellSize⌋
        ⌊bufB.MinY / si.cellSize⌋ ⌊bufB.MaxY / si.cellSize⌋).flatMap si.grid,
        x.Index = B.Index → x = B := by
      intro x hx hidx
      obtain ⟨cc, _, hcc⟩ := List.mem_flatMap.mp hx
      exact huniq x (buildIndex_sub K cs inserts cc x hcc) hidx
    have hcand := candFold_adds A B hneq _ [] hentries huniq'
    exact List.mem_map.mpr ⟨(B.Index, B), hcand, rfl⟩
  · simpa using hdist

/-- C3 witness: with kernel `K3w`, cell size 1 and search distance 1, the
single inserted record (handle 1 at index 1) is found as a neighbor of the
query handle 0. -/
theorem findNeighbors_complete_witness :
    (⟨1, 1, ()⟩ : IndexedGeometry ℕ Unit) ∈
      FindNeighbors K3w (buildIndex K3w 1 [(some 1, 1, ())]) 0 1 :=
  findNeighbors_complete K3w [(some 1, 1, ())] 1 1 0 ⟨1, 1, ()⟩
    ⟨0,0,0,0⟩ ⟨-1,-1,1,1⟩ 2 (0,0) (0,0)
    (by norm_num)
    (by simp)
    (by
      intro r hr
      have hg : (buildIndex K3w 1 [((some 1 : Option ℕ), (1:ℤ), ())]).geometries
          = [⟨1, 1, ()⟩] := by
        simp [buildIndex, AddGeometry, NewSpatialIndex, addToGrid_geometries]
      rw [hg] at hr
      intro _
      simpa using hr)
    (by decide)
    rfl
    rfl
    rfl
    (by norm_num)
    (by norm_num)
    (by norm_num)
    (by norm_num)
    (by norm_num)
    (by norm_num)
    (by norm_num [K3w])

theorem overlapCheck_hasGap (K : Kernel G) (job : CoverageJob G) (r : CoverageResult) :
    (overlapCheck K job r).HasGap = r.HasGap := by
  unfold overlapCheck
  split
  · cases K.intersection job.GeomI job.GeomJ with
    | none => rfl
    | some inter => dsimp only; split <;> rfl
  · rfl

theorem overlapCheck_boundaryGaps (K : Kernel G) (job : CoverageJob G) (r : CoverageResult) :
    (overlapCheck K job r).BoundaryGaps = r.BoundaryGaps := by
  unfold overlapCheck
  split
  · cases K.intersection job.GeomI job.GeomJ with
    | none => rfl
    | some inter => dsimp only; split <;> rfl
  · rfl

theorem validatePair_hasGap (K : Kernel G) (job : CoverageJob G) :
    (validatePair K job).HasGap =
      (decide (K.distance job.GeomI job.GeomJ ≤ job.Tolerance * 50)
        && (analyzeBoundaryGaps K job.GeomI job.GeomJ job.Tolerance).1) := by
  unfold validatePair
  dsimp only
  rcases h : analyzeBoundaryGaps K job.GeomI job.GeomJ job.Tolerance with ⟨hg, gd, mw, bg⟩
  dsimp only
  by_cases hd : K.distance job.GeomI job.GeomJ ≤ job.Tolerance * 50
  · rw [if_pos hd]
    cases hg
    · simp [overlapCheck_hasGap, hd]
    · simp [hd]
  · rw [if_neg hd]
    simp [overlapCheck_hasGap, hd]

theorem validatePair_boundaryGaps (K : Kernel G) (job : CoverageJob G) :
    (validatePair K job).BoundaryGaps =
      if K.distance job.GeomI job.GeomJ ≤ job.Tolerance * 50
          ∧ (analyzeBoundaryGaps K job.GeomI job.GeomJ job.Tolerance).1 = true
      then (analyzeBoundaryGaps K job.GeomI job.GeomJ job.Tolerance).2.2.2
      else 0 := by
  unfold validatePair
  dsimp only
  rcases h : analyzeBoundaryGaps K job.GeomI job.GeomJ job.Tolerance with ⟨hg, gd, mw, bg⟩
  dsimp only
  by_cases hd : K.distance job.GeomI job.GeomJ ≤ job.Tolerance * 50
  · rw [if_pos hd]
    cases hg
    · simp [overlapCheck_boundaryGaps, hd]
    · simp [hd]
  · rw [if_neg hd]
    simp [overlapCheck_boundaryGaps, hd]

/-- C5 counterexample: with kernel `K5` and `tolerance = 1` the pair (0, 1)
satisfies the spec's gap condition — the inter-geometry distance is exactly
`tolerance` (inside the claim's closed interval) and the buffered boundary
intersection area 5 exceeds `tolerance²` — yet the audit reports no gap,
because the code requires the *boundary* distance to be strictly greater
than `tolerance`. -/
theorem coverage_gap_spec_cx :
    specGapReported K5 0 1 1 ∧ (validatePair K5 ⟨0, 1, 0, 1, 1⟩).HasGap = false := by
  constructor
  · refine ⟨⟨by norm_num [K5], by norm_num [K5]⟩, 10, 11, 20, 21, 30, rfl, rfl, ?_, ?_, ?_, ?_⟩
    · norm_num [K5]
    · norm_num [K5]
    · norm_num [K5]
    · norm_num [K5]
  · rw [validatePair_hasGap]
    norm_num [analyzeBoundaryGaps, K5]

/-- C5 (amended): given that the kernel produces boundaries, buffers and
their intersection for the pair, the audit reports a gap iff the
inter-geometry distance is at most `tolerance*50`, the *boundary* distance
lies strictly in `(tolerance, tolerance*50]`, and the buffered-boundary
intersection area exceeds `tolerance²`; and when a gap is reported the
segment count is `int(length/(tolerance*5))` clamped to at least 1 only
when the intersection length exceeds `tolerance*10`, and 1 otherwise. -/
theorem coverage_gap_amended (K : Kernel G) (gI gJ : G) (i j : ℕ) (tolerance : ℚ)
    (bI bJ bufI bufJ inter : G)
    (hbI : K.boundary gI = some bI) (hbJ : K.boundary gJ = some bJ)
    (hbufI : K.buffer bI (tolerance * 2) 8 = some bufI)
    (hbufJ : K.buffer bJ (tolerance * 2) 8 = some bufJ)
    (hinter : K.intersection bufI bufJ = some inter) :
    ((validatePair K ⟨gI, gJ, i, j, tolerance⟩).HasGap = true ↔
      (K.distance gI gJ ≤ tolerance * 50
        ∧ tolerance < K.distance bI bJ ∧ K.distance bI bJ ≤ tolerance * 50
        ∧ K.area inter > tolerance * tolerance))
    ∧ ((validatePair K ⟨gI, gJ, i, j, tolerance⟩).HasGap = true →
      (validatePair K ⟨gI, gJ, i, j, tolerance⟩).BoundaryGaps =
        if K.geomLength inter > tolerance * 10 then
          (if goTrunc (K.geomLength inter / (tolerance * 5)) < 1 then 1
           else goTrunc (K.geomLength inter / (tolerance * 5)))
        else 1) := by
  have hana : analyzeBoundaryGaps K gI gJ tolerance =
      if K.distance bI bJ ≤ tolerance ∨ K.distance bI bJ > tolerance * 50
      then (false, K.distance bI bJ, 0, 0)
      else if K.area inter > tolerance * tolerance
      then (true, K.distance bI bJ, K.distance bI bJ,
        if K.geomLength inter > tolerance * 10 then
          (if goTrunc (K.geomLength inter / (tolerance * 5)) < 1 then 1
           else goTrunc (K.geomLength inter / (tolerance * 5)))
        else 1)
      else (false, K.distance bI bJ, 0, 0) := by
    unfold analyzeBoundaryGaps
    rw [hbI, hbJ]
    dsimp only
    split
    · rfl
    · rw [hbufI, hbufJ]
      dsimp only
      rw [hinter]
  have hiff : (validatePair K ⟨gI, gJ, i, j, tolerance⟩).HasGap = true ↔
      (K.distance gI gJ ≤ tolerance * 50
        ∧ tolerance < K.distance bI bJ ∧ K.distance bI bJ ≤ tolerance * 50
        ∧ K.area inter > tolerance * tolerance) := by
    rw [validatePair_hasGap]
    dsimp only
    rw [hana]
    by_cases hD : K.distance bI bJ ≤ tolerance ∨ K.distance bI bJ > tolerance * 50
    · rw [if_pos hD]
      constructor
      · intro habs
        exact absurd habs (by simp)
      · rintro ⟨-, h2, h3, -⟩
        exfalso
        rcases hD with hD | hD
        · exact absurd hD (not_le.mpr h2)
        · exact absurd h3 (not_le.mpr hD)
    · rw [if_neg hD]
      push_neg at hD
      by_cases hA : K.area inter > tolerance * tolerance
      · rw [if_pos hA]
        constructor
        · intro h
          rw [Bool.and_eq_true, decide_eq_true_eq] at h
          exact ⟨h.1, hD.1, hD.2, hA⟩
        · rintro ⟨h1, -⟩
          rw [Bool.and_eq_true, decide_eq_true_eq]
          exact ⟨h1, rfl⟩
      · rw [if_neg hA]
        constructor
        · intro habs
          exact absurd habs (by simp)
        · rintro ⟨-, -, -, h4⟩
          exact absurd h4 hA
  refine ⟨hiff, fun hgap => ?_⟩
  obtain ⟨h1, h2, h3, h4⟩ := hiff.mp hgap
  have hana1 : (analyzeBoundaryGaps K gI gJ tolerance).1 = true := by
    rw [hana, if_neg (by push_neg; exact ⟨h2, h3⟩), if_pos h4]
  have hana4 : (analyzeBoundaryGaps K gI gJ tolerance).2.2.2 =
      (if K.geomLength inter > tolerance * 10 then
        (if goTrunc (K.geomLength inter / (tolerance * 5)) < 1 then 1
         else goTrunc (K.geomLength inter / (tolerance * 5)))
       else 1) := by
    rw [hana, if_neg (by push_neg; exact ⟨h2, h3⟩), if_pos h4]
  rw [validatePair_boundaryGaps]
  dsimp only
  rw [if_pos ⟨h1, hana1⟩, hana4]

/-- C5 witness: with kernel `K5w` (boundary distance 2, buffered boundary
intersection area 5, length 100) and `tolerance = 1`, the amended theorem
reports a gap with 20 boundary segments. -/
theorem coverage_gap_amended_witness :
    (validatePair K5w ⟨0, 1, 0, 1, 1⟩).HasGap = true
    ∧ (validatePair K5w ⟨0, 1, 0, 1, 1⟩).BoundaryGaps = 20 := by
  have h := coverage_gap_amended K5w 0 1 0 1 1 10 11 20 21 30 rfl rfl
    (by norm_num [K5w]) (by norm_num [K5w]) rfl
  have hgap : (validatePair K5w ⟨0, 1, 0, 1, 1⟩).HasGap = true := by
    rw [h.1]
    norm_num [K5w]
  refine ⟨hgap, ?_⟩
  rw [h.2 hgap]
  norm_num [K5w, goTrunc]

/-- C4: `TruncateFullGeometry` (utils/polygon-utils.go) collects the
per-part results in goroutine completion order, not input decomposition
order: the two-part MultiPolygon `[sqA, sqB]` (whose parts truncation
leaves unchanged) comes back as `[sqB, sqA]` when part 1 finishes first and
as `[sqA, sqB]` when part 0 finishes first — the output part order follows
the completion order `π`, contradicting the required index correlation. -/
theorem truncateFull_arrival_order_bug :
    TruncateFullGeometry vTrue rTrue [1, 0] (some (.multi [sqA, sqB]))
      = .ok (.multi [sqB, sqA])
    ∧ TruncateFullGeometry vTrue rTrue [0, 1] (some (.multi [sqA, sqB]))
      = .ok (.multi [sqA, sqB])
    ∧ sqA ≠ sqB := by
  refine ⟨?_, ?_, ?_⟩
  · norm_num [TruncateFullGeometry, launchList, permuteBy, TruncateSinglePolygon, truncRing,
      truncateCoordinates, roundFloat, goRound, PRECISION, vTrue, rTrue, sqA, sqB,
      List.filterMap]
  · norm_num [TruncateFullGeometry, launchList, permuteBy, TruncateSinglePolygon, truncRing,
      truncateCoordinates, roundFloat, goRound, PRECISION, vTrue, rTrue, sqA, sqB,
      List.filterMap]
  · norm_num [sqA, sqB]

/-- C1: the serialized output of `CleanTopology` follows the PARSE stage's
completion order, not the input order: with two well-formed far-apart
features carrying properties tags 0 and 1, a run in which feature 1's parse
completes first serializes the features as `[1, 0]` even though both
survive — `parseGeometriesParallel` appends results in arrival order and
never uses the `Index` its results carry (the later stages do re-sort, but
only relative to the already-permuted parsed list). -/
theorem cleanTopology_parse_order_bug :
    pipelineInput.map (·.properties) = [0, 1]
    ∧ (CleanTopologyModel PKc Kc (fun g => g) (fun g => .ok g) [1, 0] [0, 1] [0, 1]
        pipelineInput).map (·.properties) = [1, 0] := by
  constructor
  · rfl
  · norm_num [CleanTopologyModel, CalculateWGS84ToleranceFromMeters, parseGeometriesParallel,
      parseWork, permuteBy, buildIndex, AddGeometry, addToGrid, gridAppend, cellPairs,
      cellRange, NewSpatialIndex, snapBoundariesParallel, snapWork, FindNeighbors, mapSet,
      conservativeSnap, calculateGeometryDistortion, validateAndRepairGeometriesParallel,
      validateGeometry, repairOf, serializeFeatures, PKc, Kc, pipelineInput, List.enum,
      List.filterMap, List.flatMap]

end PolygonFixer
